import Mathlib

/-!
Verification of the JSON-flattening converter `src/json_to_csv.py` of the
repository `randilt/dev-automation-scripts`.

The development shallowly embeds the two functions of that file:
`flatten_json` (the recursive flattener) and `json_to_csv` (the command-line
wrapper, with its file I/O abstracted into explicit parameters), and proves
or refutes the frozen specification claims about them.
-/

/-- Scalar leaf values as produced by Python by decoding JSON: strings,
(integer) numbers, booleans and null (Python `None`).  Floating-point
numbers are outside the embedding. -/
inductive SVal where
  | str (s : String)
  | int (n : Int)
  | bool (b : Bool)
  | null
deriving DecidableEq, Repr

/-- Python `str` applied to a decoded JSON scalar, as used by the source in
`str(item)` and `str(data)`: strings pass through, integers render in
decimal, `True`/`False`/`None` render with Python capitalisation. -/
def pyStr : SVal → String
  | .str s => s
  | .int n => toString n
  | .bool true => "True"
  | .bool false => "False"
  | .null => "None"

/-- A decoded JSON document: a Python `dict` (string keys, insertion order
preserved, modelled as an association list), a Python `list`, or a scalar. -/
inductive Node where
  | scalar (v : SVal)
  | map (entries : List (String × Node))
  | seq (items : List Node)
deriving Repr

mutual

/-- Embedding of `flatten_json(data, parent_key='', sep='.')` from
`src/json_to_csv.py` lines 13-47.  The `dict` branch is `flattenMapItems`,
the `list` branch is `flattenSeqItems`, and the final `else` branch emits
the single pair `(parent_key, str(data))`. -/
def flatten_json : Node → String → String → List (String × String)
  | .map entries, parent_key, sep => flattenMapItems entries parent_key sep
  | .seq items, parent_key, sep => flattenSeqItems items parent_key sep 0
  | .scalar v, parent_key, _ => [(parent_key, pyStr v)]

/-- The `for key, value in data.items()` loop of the `dict` branch
(lines 20-34): `new_key` is `parent_key + sep + key` when `parent_key` is
truthy (non-empty) and `key` otherwise; dict values recurse, list values
are expanded in place by `flattenDictListItems`, scalar values emit one
pair. -/
def flattenMapItems : List (String × Node) → String → String → List (String × String)
  | [], _, _ => []
  | (key, value) :: rest, parent_key, sep =>
    let new_key := if parent_key = "" then key else parent_key ++ sep ++ key
    (match value with
     | .map es => flatten_json (.map es) new_key sep
     | .seq its => flattenDictListItems its new_key sep 0
     | .scalar v => [(new_key, pyStr v)]) ++ flattenMapItems rest parent_key sep

/-- The inner `for idx, item in enumerate(value)` loop of the `dict`
branch (lines 27-32): the element key is `new_key + sep + idx`
unconditionally; dict/list elements recurse through `flatten_json`,
scalar elements emit one pair. -/
def flattenDictListItems : List Node → String → String → Nat → List (String × String)
  | [], _, _, _ => []
  | item :: rest, new_key, sep, idx =>
    let array_key := new_key ++ sep ++ toString idx
    (match item with
     | .scalar v => [(array_key, pyStr v)]
     | .map es => flatten_json (.map es) array_key sep
     | .seq its => flatten_json (.seq its) array_key sep)
      ++ flattenDictListItems rest new_key sep (idx + 1)

/-- The `for idx, item in enumerate(data)` loop of the `list` branch
(lines 36-42): the element key is `parent_key + sep + idx` when
`parent_key` is truthy (non-empty) and `str(idx)` otherwise; dict/list
elements recurse through `flatten_json`, scalar elements emit one pair. -/
def flattenSeqItems : List Node → String → String → Nat → List (String × String)
  | [], _, _, _ => []
  | item :: rest, parent_key, sep, idx =>
    let array_key := if parent_key = "" then toString idx
      else parent_key ++ sep ++ toString idx
    (match item with
     | .scalar v => [(array_key, pyStr v)]
     | .map es => flatten_json (.map es) array_key sep
     | .seq its => flatten_json (.seq its) array_key sep)
      ++ flattenSeqItems rest parent_key sep (idx + 1)

end

/-- Modelled from the spec: the child key a Sequence element at index `i`
receives according to the contract of section 4.1 — `prefix.i`, or `i`
stringified when the prefix is empty. -/
def specChildKey (p sep : String) (i : Nat) : String :=
  if p = "" then toString i else p ++ sep ++ toString i

mutual

/-- Modelled from the spec: the Scalar leaves of a tree in pre-order,
depth-first order, visiting Mapping entries in insertion order and
Sequence elements in index order. -/
def leafScalars : Node → List SVal
  | .scalar v => [v]
  | .map es => leafScalarsOfEntries es
  | .seq xs => leafScalarsOfItems xs

/-- Leaves of a Mapping entry list, in order. -/
def leafScalarsOfEntries : List (String × Node) → List SVal
  | [] => []
  | (_, v) :: rest => leafScalars v ++ leafScalarsOfEntries rest

/-- Leaves of a Sequence item list, in order. -/
def leafScalarsOfItems : List Node → List SVal
  | [] => []
  | x :: rest => leafScalars x ++ leafScalarsOfItems rest

end

mutual

/-- Modelled from the spec: the maximum nesting depth of a tree — a
scalar has depth 0 and a container is one deeper than its deepest child
(an empty container has depth 1). -/
def nestingDepth : Node → Nat
  | .scalar _ => 0
  | .map es => 1 + nestingDepthOfEntries es
  | .seq xs => 1 + nestingDepthOfItems xs

/-- Maximum nesting depth over a Mapping entry list. -/
def nestingDepthOfEntries : List (String × Node) → Nat
  | [] => 0
  | (_, v) :: rest => max (nestingDepth v) (nestingDepthOfEntries rest)

/-- Maximum nesting depth over a Sequence item list. -/
def nestingDepthOfItems : List Node → Nat
  | [] => 0
  | x :: rest => max (nestingDepth x) (nestingDepthOfItems rest)

end

mutual

/-- Depth of the call tree of `flatten_json` on a given input: the frame
of the call itself plus the deepest chain of recursive `flatten_json`
calls it makes.  It mirrors the recursion structure of the source: in the
`dict` branch a `dict` value costs a recursive call, while a `list` value
is iterated in place and only its `dict`/`list` elements cost calls; in
the `list` branch every `dict`/`list` element costs a call; scalars never
cost further calls. -/
def flattenCallDepth : Node → Nat
  | .scalar _ => 1
  | .map es => 1 + callDepthOfEntries es
  | .seq xs => 1 + callDepthOfItems xs

/-- Deepest recursive-call chain launched while looping over a Mapping
entry list: a `dict` value contributes a full `flatten_json` call on it,
a `list` value contributes only the calls on its nested elements, and a
scalar value contributes nothing. -/
def callDepthOfEntries : List (String × Node) → Nat
  | [] => 0
  | (_, .scalar _) :: rest => callDepthOfEntries rest
  | (_, .map es) :: rest => max (1 + callDepthOfEntries es) (callDepthOfEntries rest)
  | (_, .seq xs) :: rest => max (callDepthOfItems xs) (callDepthOfEntries rest)

/-- Deepest recursive-call chain launched while looping over list
elements (either a Sequence node or a `list` value inside a `dict`):
each `dict`/`list` element contributes a full `flatten_json` call and a
scalar element contributes nothing. -/
def callDepthOfItems : List Node → Nat
  | [] => 0
  | .scalar _ :: rest => callDepthOfItems rest
  | .map es :: rest => max (flattenCallDepth (.map es)) (callDepthOfItems rest)
  | .seq xs :: rest => max (flattenCallDepth (.seq xs)) (callDepthOfItems rest)

end

/-- Modelled from the spec: `stringOf` as the claim C5 reads it for
JSON-decoded input — booleans as `true`/`false`, null as `null`, numbers
as decimal numerals, strings unchanged. -/
def stringOfJSON : SVal → String
  | .str s => s
  | .int n => toString n
  | .bool true => "true"
  | .bool false => "false"
  | .null => "null"

/-- Outcome of one run of the command-line wrapper: either the process
exits with a status code after printing a diagnostic to stderr, or it
succeeds, having written the given CSV rows and reported the given row
count in its summary. -/
inductive CliOutcome where
  | exit (status : Nat) (diagnostic : String)
  | success (csvRows : List (List String)) (reportedRowCount : Nat)
deriving Repr

/-- Embedding of `json_to_csv(input_file, output_file)` from
`src/json_to_csv.py` lines 50-87, with the file system abstracted:
`contents` is `none` when `input_path.exists()` is false, `some none`
when reading succeeds but `json.load` raises (with `parseErr` standing
for the exception text), and `some (some data)` when parsing yields
`data`.  `writeOk` abstracts whether opening and writing the output CSV
succeeds (with `writeErr` standing for the exception text).  On success
the rows written are the header `key`, `translation` followed by one row
per flattened pair, and the reported count is `len(flattened)`. -/
def json_to_csv (input_file : String) (contents : Option (Option Node))
    (parseErr : String) (writeOk : Bool) (writeErr : String) : CliOutcome :=
  match contents with
  | none => .exit 1 ("Error: File '" ++ input_file ++ "' not found.")
  | some none => .exit 1 ("Error: Invalid JSON in '" ++ input_file ++ "': " ++ parseErr)
  | some (some data) =>
    let flattened := flatten_json data "" "."
    if writeOk then
      .success (["key", "translation"] :: flattened.map (fun kv => [kv.1, kv.2]))
        flattened.length
    else
      .exit 1 writeErr

mutual

theorem flatten_snd (t : Node) (p s : String) :
    List.map Prod.snd (flatten_json t p s) = List.map pyStr (leafScalars t) :=
  match t with
  | .scalar v => by simp [flatten_json, leafScalars]
  | .map es => by
    have h := flattenMapItems_snd es p s
    simpa [flatten_json, leafScalars] using h
  | .seq xs => by
    have h := flattenSeqItems_snd xs p s 0
    simpa [flatten_json, leafScalars] using h

theorem flattenMapItems_snd (es : List (String × Node)) (p s : String) :
    List.map Prod.snd (flattenMapItems es p s)
      = List.map pyStr (leafScalarsOfEntries es) :=
  match es with
  | [] => by simp [flattenMapItems, leafScalarsOfEntries]
  | (k, .scalar w) :: rest => by
    have hrest := flattenMapItems_snd rest p s
    simp [flattenMapItems, leafScalarsOfEntries, leafScalars, hrest]
  | (k, .map es2) :: rest => by
    have hrest := flattenMapItems_snd rest p s
    have h := flatten_snd (.map es2) (if p = "" then k else p ++ s ++ k) s
    simp [flattenMapItems, leafScalarsOfEntries, hrest, h]
  | (k, .seq xs) :: rest => by
    have hrest := flattenMapItems_snd rest p s
    have h := flattenDictListItems_snd xs (if p = "" then k else p ++ s ++ k) s 0
    simp [flattenMapItems, leafScalarsOfEntries, leafScalars, hrest, h]

theorem flattenDictListItems_snd (xs : List Node) (nk s : String) (i : Nat) :
    List.map Prod.snd (flattenDictListItems xs nk s i)
      = List.map pyStr (leafScalarsOfItems xs) :=
  match xs with
  | [] => by simp [flattenDictListItems, leafScalarsOfItems]
  | .scalar w :: rest => by
    have hrest := flattenDictListItems_snd rest nk s (i + 1)
    simp [flattenDictListItems, leafScalarsOfItems, leafScalars, hrest]
  | .map es :: rest => by
    have hrest := flattenDictListItems_snd rest nk s (i + 1)
    have h := flatten_snd (.map es) (nk ++ s ++ toString i) s
    simp [flattenDictListItems, leafScalarsOfItems, hrest, h]
  | .seq xs2 :: rest => by
    have hrest := flattenDictListItems_snd rest nk s (i + 1)
    have h := flatten_snd (.seq xs2) (nk ++ s ++ toString i) s
    simp [flattenDictListItems, leafScalarsOfItems, hrest, h]

theorem flattenSeqItems_snd (xs : List Node) (p s : String) (i : Nat) :
    List.map Prod.snd (flattenSeqItems xs p s i)
      = List.map pyStr (leafScalarsOfItems xs) :=
  match xs with
  | [] => by simp [flattenSeqItems, leafScalarsOfItems]
  | .scalar w :: rest => by
    have hrest := flattenSeqItems_snd rest p s (i + 1)
    simp [flattenSeqItems, leafScalarsOfItems, leafScalars, hrest]
  | .map es :: rest => by
    have hrest := flattenSeqItems_snd rest p s (i + 1)
    have h := flatten_snd (.map es)
      (if p = "" then toString i else p ++ s ++ toString i) s
    simp [flattenSeqItems, leafScalarsOfItems, hrest, h]
  | .seq xs2 :: rest => by
    have hrest := flattenSeqItems_snd rest p s (i + 1)
    have h := flatten_snd (.seq xs2)
      (if p = "" then toString i else p ++ s ++ toString i) s
    simp [flattenSeqItems, leafScalarsOfItems, hrest, h]

end

theorem enumFrom_cons_eq {α : Type} (n : Nat) (x : α) (xs : List α) :
    List.enumFrom n (x :: xs) = (n, x) :: List.enumFrom (n + 1) xs := rfl

theorem flattenSeqItems_eq_enum (xs : List Node) (p s : String) (i : Nat) :
    flattenSeqItems xs p s i
      = (List.enumFrom i xs).flatMap
          (fun ia => flatten_json ia.2 (specChildKey p s ia.1) s) := by
  induction xs generalizing i with
  | nil => simp [flattenSeqItems]
  | cons x rest ih =>
    rw [enumFrom_cons_eq, List.flatMap_cons]
    cases x with
    | scalar v => simp [flattenSeqItems, flatten_json, specChildKey, ih]
    | map es => simp [flattenSeqItems, specChildKey, ih]
    | seq xs2 => simp [flattenSeqItems, specChildKey, ih]

theorem flattenDictListItems_eq_enum (xs : List Node) (nk s : String) (i : Nat) :
    flattenDictListItems xs nk s i
      = (List.enumFrom i xs).flatMap
          (fun ia => flatten_json ia.2 (nk ++ s ++ toString ia.1) s) := by
  induction xs generalizing i with
  | nil => simp [flattenDictListItems]
  | cons x rest ih =>
    rw [enumFrom_cons_eq, List.flatMap_cons]
    cases x with
    | scalar v => simp [flattenDictListItems, flatten_json, ih]
    | map es => simp [flattenDictListItems, ih]
    | seq xs2 => simp [flattenDictListItems, ih]

mutual

theorem callDepthOfEntries_le (es : List (String × Node)) :
    callDepthOfEntries es ≤ nestingDepthOfEntries es :=
  match es with
  | [] => le_refl 0
  | (k, .scalar w) :: rest => by
    have hrest := callDepthOfEntries_le rest
    simp only [callDepthOfEntries, nestingDepthOfEntries, nestingDepth]
    omega
  | (k, .map es2) :: rest => by
    have hrest := callDepthOfEntries_le rest
    have h := callDepthOfEntries_le es2
    simp only [callDepthOfEntries, nestingDepthOfEntries, nestingDepth]
    omega
  | (k, .seq xs) :: rest => by
    have hrest := callDepthOfEntries_le rest
    have h := callDepthOfItems_le xs
    simp only [callDepthOfEntries, nestingDepthOfEntries, nestingDepth]
    omega

theorem callDepthOfItems_le (xs : List Node) :
    callDepthOfItems xs ≤ nestingDepthOfItems xs :=
  match xs with
  | [] => le_refl 0
  | .scalar w :: rest => by
    have hrest := callDepthOfItems_le rest
    simp only [callDepthOfItems, nestingDepthOfItems, nestingDepth]
    omega
  | .map es :: rest => by
    have hrest := callDepthOfItems_le rest
    have h := callDepthOfEntries_le es
    simp only [callDepthOfItems, nestingDepthOfItems, nestingDepth,
      flattenCallDepth]
    omega
  | .seq xs2 :: rest => by
    have hrest := callDepthOfItems_le rest
    have h := callDepthOfItems_le xs2
    simp only [callDepthOfItems, nestingDepthOfItems, nestingDepth,
      flattenCallDepth]
    omega

end

theorem flattenCallDepth_le (t : Node) :
    flattenCallDepth t ≤ max 1 (nestingDepth t) := by
  cases t with
  | scalar v => simp [flattenCallDepth, nestingDepth]
  | map es =>
    have h := callDepthOfEntries_le es
    simp only [flattenCallDepth, nestingDepth]
    omega
  | seq xs =>
    have h := callDepthOfItems_le xs
    simp only [flattenCallDepth, nestingDepth]
    omega

/-- C1: for every input tree, `flatten_json` produces exactly one entry
per Scalar leaf — the output length equals the number of leaves reachable
by recursive descent — and the output values are the leaves in pre-order,
depth-first order, visiting Mapping entries in insertion order and
Sequence elements in index order. -/
theorem claim_c1_preorder_leaves (t : Node) (p s : String) :
    (flatten_json t p s).length = (leafScalars t).length ∧
    List.map Prod.snd (flatten_json t p s) = List.map pyStr (leafScalars t) := by
  have h := flatten_snd t p s
  refine ⟨?_, h⟩
  have hl := congrArg List.length h
  simpa using hl

/-- C2 counterexample: for the Sequence appearing as the value of the
empty-string key of a top-level Mapping, the accumulated prefix
(`new_key`) is empty, yet the element at index 0 is keyed `".0"`, not
`"0"` as the claim demands for an empty prefix. -/
theorem claim_c2_counterexample :
    flatten_json (.map [("", .seq [.scalar (.int 1)])]) "" "." = [(".0", "1")] ∧
    (".0" : String) ≠ "0" := by
  constructor
  · simp [flatten_json, flattenMapItems, flattenDictListItems, pyStr]
    decide
  · decide

/-- C2 amended: a Sequence flattened directly (top level, or reached
through a recursive `flatten_json` call) keys its element at index `i`
with `prefix + sep + i` when the prefix is non-empty and `str i` when it
is empty, concatenating the recursively flattened elements in order; but
a Sequence appearing as a Mapping value keys its elements
`newKey + sep + i` unconditionally, even when `newKey` is empty. -/
theorem claim_c2_amended (xs : List Node) (k p s : String)
    (rest : List (String × Node)) :
    flatten_json (.seq xs) p s
      = (List.enum xs).flatMap
          (fun ia => flatten_json ia.2 (specChildKey p s ia.1) s) ∧
    flatten_json (.map ((k, .seq xs) :: rest)) p s
      = ((List.enum xs).flatMap (fun ia =>
            flatten_json ia.2
              ((if p = "" then k else p ++ s ++ k) ++ s ++ toString ia.1) s))
          ++ flatten_json (.map rest) p s := by
  constructor
  · rw [show List.enum xs = List.enumFrom 0 xs from rfl]
    simpa [flatten_json] using flattenSeqItems_eq_enum xs p s 0
  · rw [show List.enum xs = List.enumFrom 0 xs from rfl]
    have h := flattenDictListItems_eq_enum xs (if p = "" then k else p ++ s ++ k) s 0
    simp [flatten_json, flattenMapItems, h]

/-- C3: an empty Mapping or empty Sequence contributes zero entries at
any position — as the whole input, or as a Mapping value — and in
particular flattening the tree for `{"a": {}, "b": []}` yields `[]`. -/
theorem claim_c3_empty_containers (p s k : String) (rest : List (String × Node)) :
    flatten_json (.map []) p s = [] ∧
    flatten_json (.seq []) p s = [] ∧
    flatten_json (.map ((k, .map []) :: rest)) p s = flatten_json (.map rest) p s ∧
    flatten_json (.map ((k, .seq []) :: rest)) p s = flatten_json (.map rest) p s ∧
    flatten_json (.map [("a", .map []), ("b", .seq [])]) "" "." = [] := by
  simp [flatten_json, flattenMapItems, flattenSeqItems, flattenDictListItems]

/-- C4: a Scalar given as the top-level input with an empty prefix yields
exactly one entry with an empty-string key and the stringified scalar as
value; in particular flattening the number 42 yields `[("", "42")]`. -/
theorem claim_c4_scalar_root (v : SVal) (sep : String) :
    flatten_json (.scalar v) "" sep = [("", pyStr v)] ∧
    flatten_json (.scalar (.int 42)) "" "." = [("", "42")] := by
  constructor
  · simp [flatten_json]
  · simp [flatten_json, pyStr]
    decide

/-- C5 counterexample: the value emitted for the boolean scalar `true` is
Python's rendering `"True"`, not the JSON canonical text `"true"` that the
claim requires for JSON-decoded input. -/
theorem claim_c5_counterexample :
    flatten_json (.scalar (.bool true)) "" "." = [("", "True")] ∧
    flatten_json (.scalar (.bool true)) "" "." ≠ [("", stringOfJSON (.bool true))] := by
  constructor
  · simp [flatten_json, pyStr]
  · simp [flatten_json, pyStr, stringOfJSON]

/-- C5 amended: the emitted value for every Scalar leaf is Python's `str`
of the scalar — booleans as `"True"`/`"False"`, null as `"None"`, numbers
as decimal numerals, strings unchanged — not the JSON lowercase texts. -/
theorem claim_c5_amended (v : SVal) (p s : String) :
    flatten_json (.scalar v) p s = [(p, pyStr v)] ∧
    pyStr (.bool true) = "True" ∧ pyStr (.bool false) = "False" ∧
    pyStr .null = "None" ∧ (∀ n : Int, pyStr (.int n) = toString n) ∧
    (∀ st : String, pyStr (.str st) = st) :=
  ⟨by simp [flatten_json], rfl, rfl, rfl, fun n => rfl, fun st => rfl⟩

/-- C6 counterexample: the trees for `{"a": {"b": 1}}` and `{"a": [1]}`
have the same maximum nesting depth, yet `flatten_json` recurses to
depth 2 on the first and depth 1 on the second (a list value inside a
dict is iterated in place, without a recursive call), so recursion depth
cannot equal nesting depth. -/
theorem claim_c6_counterexample :
    nestingDepth (.map [("a", .map [("b", .scalar (.int 1))])])
      = nestingDepth (.map [("a", .seq [.scalar (.int 1)])]) ∧
    flattenCallDepth (.map [("a", .map [("b", .scalar (.int 1))])]) = 2 ∧
    flattenCallDepth (.map [("a", .seq [.scalar (.int 1)])]) = 1 := by
  refine ⟨?_, ?_, ?_⟩ <;>
    simp [nestingDepth, nestingDepthOfEntries, nestingDepthOfItems,
      flattenCallDepth, callDepthOfEntries, callDepthOfItems]

/-- C6 amended: `flatten_json` is total — it terminates with a flat entry
list on every finite tree built from the three Node variants — and its
recursion depth is at most the maximum nesting depth of the input (at
most `max 1` of it, and strictly less when a Sequence appears as a
Mapping value, whose elements are iterated in place). -/
theorem claim_c6_amended :
    (∀ (t : Node) (p s : String), ∃ out, flatten_json t p s = out) ∧
    (∀ t : Node, flattenCallDepth t ≤ max 1 (nestingDepth t)) :=
  ⟨fun t p s => ⟨flatten_json t p s, rfl⟩, flattenCallDepth_le⟩

/-- C7: `flatten_json` is pure — its only result is the returned list,
which is determined by the input tree, prefix and separator: two calls on
equal arguments return equal outputs. -/
theorem claim_c7_pure (t t2 : Node) (p p2 s s2 : String)
    (ht : t = t2) (hp : p = p2) (hs : s = s2) :
    flatten_json t p s = flatten_json t2 p2 s2 := by
  subst ht; subst hp; subst hs; rfl

/-- C7 witness at a concrete input. -/
theorem claim_c7_pure_witness :
    flatten_json (.scalar .null) "" "." = flatten_json (.scalar .null) "" "." :=
  claim_c7_pure (.scalar .null) (.scalar .null) "" "" "." "." rfl rfl rfl

/-- C8: the command-line wrapper exits with status 1 and a diagnostic
when the input file is missing or its JSON fails to parse (writing no
rows in those cases); otherwise, when the output file is writable, it
writes the header `key`, `translation` followed by one row per flattened
pair and reports `len(flattened)` as the row count. -/
theorem claim_c8_cli (input_file parseErr writeErr : String)
    (writeOk : Bool) (data : Node) :
    json_to_csv input_file none parseErr writeOk writeErr
      = .exit 1 ("Error: File '" ++ input_file ++ "' not found.") ∧
    json_to_csv input_file (some none) parseErr writeOk writeErr
      = .exit 1 ("Error: Invalid JSON in '" ++ input_file ++ "': " ++ parseErr) ∧
    (writeOk = true →
      json_to_csv input_file (some (some data)) parseErr writeOk writeErr
        = .success
            (["key", "translation"]
              :: (flatten_json data "" ".").map (fun kv => [kv.1, kv.2]))
            (flatten_json data "" ".").length) := by
  refine ⟨rfl, rfl, fun hw => ?_⟩
  subst hw
  simp [json_to_csv]

/-- C8 witness at a concrete run. -/
theorem claim_c8_cli_witness :
    json_to_csv "x.json" (some (some (.scalar (.int 7)))) "" true ""
      = .success [["key", "translation"], ["", "7"]] 1 := by
  have h := (claim_c8_cli "x.json" "" "" true (.scalar (.int 7))).2.2 rfl
  rw [h]
  simp [flatten_json, pyStr]
  decide

/-- C9: flattening is not injective — the distinct trees for
`{"a.b": 1}` and `{"a": {"b": 1}}` flatten, with the default separator
`"."`, to the identical output `[("a.b", "1")]`. -/
theorem claim_c9_not_injective :
    Node.map [("a.b", .scalar (.int 1))]
        ≠ Node.map [("a", .map [("b", .scalar (.int 1))])] ∧
    flatten_json (.map [("a.b", .scalar (.int 1))]) "" "."
      = flatten_json (.map [("a", .map [("b", .scalar (.int 1))])]) "" "." := by
  constructor
  · intro h
    simp at h
  · simp [flatten_json, flattenMapItems, pyStr]

/-- C10: for every scalar `v`, the Mapping whose only key is the empty
string mapping to `v` flattens exactly like the bare scalar at top level,
to `[("", str v)]`, whatever the separator. -/
theorem claim_c10_empty_key_collision (v : SVal) (sep : String) :
    flatten_json (.map [("", .scalar v)]) "" sep
      = flatten_json (.scalar v) "" sep ∧
    flatten_json (.scalar v) "" sep = [("", pyStr v)] := by
  constructor
  · simp [flatten_json, flattenMapItems]
  · simp [flatten_json]
